import Mathlib

/-!
Verification of the appointment-booking core of the interview-form repository.

The repository contains two booking flows over the same remote appointment
table:

* flow A, the candidate-facing view (`src/pages/CandidateBooking.tsx`,
  addressed by `?candidate_id=`), and
* flow B, the recruiter-side appointment selection view (the unnamed source
  file `AppointmentSelection`).

All definitions below are shallow embeddings of the TypeScript source.
Instants are modelled as integers: minutes since the Unix epoch for the
calendar logic, seconds since the epoch for the timezone round-trip, and
milliseconds for the question-disclosure gate (matching the units each piece
of source code actually computes with).  The remote appointment table is a
list of rows; the database's uniqueness constraint on `candidate_id` (which
the upsert's `onConflict: 'candidate_id'` relies on) appears as the
`storeWF` hypothesis and as the failure case of plain `insert`.
-/

/-! ## Calendar-time primitives (minutes since the Unix epoch)

`date-fns` works on local timestamps; `startOfDay`, `addDays`, `isBefore`,
`isAfter`, `isSameDay` and `Date.getDay` are embedded on integer minutes.
Day 0 (1970-01-01) was a Thursday, hence the `+ 4` in `getDay`. -/

/-- `startOfDay` from date-fns: truncate a minute-timestamp to midnight. -/
def startOfDay (t : Int) : Int := 1440 * (t / 1440)

/-- `addDays` from date-fns, on minute-timestamps. -/
def addDaysMin (t n : Int) : Int := t + 1440 * n

/-- JavaScript `Date.prototype.getDay`: 0 = Sunday .. 6 = Saturday. -/
def getDay (t : Int) : Int := (t / 1440 + 4) % 7

/-- `isSameDay` from date-fns: same calendar day. -/
def isSameDay (a b : Int) : Bool := a / 1440 == b / 1440

/-! ## Slot-calendar eligibility (`isDateDisabled`, slot disabling) -/

/-- `isDateDisabled` in flow A (`CandidateBooking.tsx`): rejects dates before
the start of today, dates after today + 14 days, and weekends. -/
def isDateDisabled_A (now date : Int) : Bool :=
  decide (date < startOfDay now) ||
  decide (addDaysMin (startOfDay now) 14 < date) ||
  (getDay date == 0) || (getDay date == 6)

/-- `isDateDisabled` in flow B (`AppointmentSelection`): rejects days before
today and weekends; there is no 14-day upper bound. -/
def isDateDisabled_B (now date : Int) : Bool :=
  decide (startOfDay date < startOfDay now) ||
  (getDay (startOfDay date) == 0) || (getDay (startOfDay date) == 6)

/-- Flow A slot rendering: a slot is disabled when unavailable, when the
selected date is today and the slot's time-of-day has already passed, or when
an existing appointment is shown outside edit mode (`blocked`).  `slotMin` is
the slot's time-of-day in minutes (`setHours(hour, minute, 0, 0)` on the
selected date). -/
def isSlotDisabled_A (now selectedDate slotMin : Int) (available blocked : Bool) : Bool :=
  !available ||
  (isSameDay selectedDate now && decide (startOfDay selectedDate + slotMin < now)) ||
  blocked

/-- Flow B slot rendering: disabled only when unavailable or blocked by an
existing appointment outside edit mode — there is no past-time check. -/
def isSlotDisabled_B (available blocked : Bool) : Bool :=
  !available || blocked

/-! ## Question Disclosure Gate (`QuestionViewer`, milliseconds) -/

/-- End of the 30-minute disclosure window computed by `QuestionViewer`
(`start.getTime() + 30 * 60 * 1000`), in milliseconds. -/
def disclosureWindowEnd (start : Int) : Int := start + 30 * 60 * 1000

/-- `isWithinTime` as the source actually defines it: the window bounds are
computed but the comparison is commented out and the flag is the constant
`true`, so the gate always permits fetching the question set. -/
def isWithinTime (_now _start : Int) : Bool :=
  true

/-- Modelled from the spec: the intended time-boxed disclosure predicate
(`now` within `[scheduledInstant, scheduledInstant + 30min]`), which the
source computes but leaves commented out. -/
def intendedWithinTime (now start : Int) : Bool :=
  decide (start ≤ now) && decide (now ≤ disclosureWindowEnd start)

/-! ## Theorems for C1, C6, C7, C8 -/

/-- Claim C1: the claim says the gate permits fetching iff `now` lies in
`[t, t + 30min]`.  The code bug: at `now` one minute past the window's end
the gate still permits (`isWithinTime` is the constant `true`), while the
intended predicate — present in the source as a comment and in the spec —
rejects. -/
theorem C1_gate_always_permits :
    isWithinTime (disclosureWindowEnd 0 + 60000) 0 = true ∧
    intendedWithinTime (disclosureWindowEnd 0 + 60000) 0 = false := by
  constructor
  · rfl
  · decide

/-- Claim C6: flow A disables every date strictly more than 14 days after the
start of today, while flow B leaves some weekday more than 14 days out
enabled (the upper bound is not enforced there). -/
theorem C6_lookahead_divergence :
    (∀ now date : Int, addDaysMin (startOfDay now) 14 < date →
      isDateDisabled_A now date = true) ∧
    (∃ now date : Int, addDaysMin (startOfDay now) 14 < date ∧
      getDay date ≠ 0 ∧ getDay date ≠ 6 ∧ isDateDisabled_B now date = false) := by
  constructor
  · intro now date h
    simp only [isDateDisabled_A, Bool.or_eq_true, decide_eq_true_eq, beq_iff_eq]
    exact Or.inl (Or.inl (Or.inr h))
  · exact ⟨0, 20 * 1440, by decide, by decide, by decide, by decide⟩

/-- Witness for C6 at a concrete input: 15 days and one minute past midnight
of day 0 is disabled in flow A. -/
theorem C6_lookahead_divergence_witness :
    isDateDisabled_A 0 (15 * 1440 + 1) = true :=
  C6_lookahead_divergence.1 0 (15 * 1440 + 1) (by decide)

/-- Claim C7: in both flows, every date strictly before the start of today is
disabled, and every Saturday or Sunday is disabled regardless of the
look-ahead bound. -/
theorem C7_past_and_weekend_disabled :
    ∀ now date : Int,
      (date < startOfDay now →
        isDateDisabled_A now date = true ∧ isDateDisabled_B now date = true) ∧
      (getDay date = 0 ∨ getDay date = 6 →
        isDateDisabled_A now date = true ∧ isDateDisabled_B now date = true) := by
  intro now date
  constructor
  · intro h
    constructor
    · simp only [isDateDisabled_A, Bool.or_eq_true, decide_eq_true_eq, beq_iff_eq]
      exact Or.inl (Or.inl (Or.inl h))
    · simp only [isDateDisabled_B, Bool.or_eq_true, decide_eq_true_eq, beq_iff_eq]
      refine Or.inl (Or.inl ?_)
      simp only [startOfDay] at h ⊢
      omega
  · intro h
    have hday : getDay (startOfDay date) = getDay date := by
      simp only [getDay, startOfDay]
      omega
    constructor
    · simp only [isDateDisabled_A, Bool.or_eq_true, decide_eq_true_eq, beq_iff_eq]
      rcases h with h | h
      · exact Or.inl (Or.inr h)
      · exact Or.inr h
    · simp only [isDateDisabled_B, Bool.or_eq_true, decide_eq_true_eq, beq_iff_eq, hday]
      rcases h with h | h
      · exact Or.inl (Or.inr h)
      · exact Or.inr h

/-- Witness for C7 at concrete inputs: yesterday is disabled in both flows,
and day 2 (a Saturday) is disabled in both flows. -/
theorem C7_past_and_weekend_disabled_witness :
    (isDateDisabled_A 1440 0 = true ∧ isDateDisabled_B 1440 0 = true) ∧
    (isDateDisabled_A 0 (2 * 1440) = true ∧ isDateDisabled_B 0 (2 * 1440) = true) :=
  ⟨(C7_past_and_weekend_disabled 1440 0).1 (by decide),
   (C7_past_and_weekend_disabled 0 (2 * 1440)).2 (by decide)⟩

/-- Claim C8 counterexample: in flow B, with today (day 0) selected at 10:00
(`now = 600`), the 09:00 slot (which has already passed, as the first two
conjuncts record) is still enabled: `isSlotDisabled_B` ignores the current
time entirely. -/
theorem C8_flowB_past_slot_enabled :
    isSameDay 0 600 = true ∧ startOfDay 0 + 540 < 600 ∧
    isSlotDisabled_B true false = false := by
  decide

/-- Claim C8 amended: only the candidate-facing flow A disables a slot whose
time-of-day has already passed when the selected date is today; flow B has no
past-time check (see the counterexample). -/
theorem C8_flowA_past_slot_disabled :
    ∀ (now selectedDate slotMin : Int) (available blocked : Bool),
      isSameDay selectedDate now = true →
      startOfDay selectedDate + slotMin < now →
      isSlotDisabled_A now selectedDate slotMin available blocked = true := by
  intro now selectedDate slotMin available blocked h1 h2
  simp only [isSlotDisabled_A, Bool.or_eq_true, Bool.and_eq_true, decide_eq_true_eq]
  exact Or.inl (Or.inr ⟨h1, h2⟩)

/-- Witness for the amended C8: flow A disables the passed 09:00 slot at
10:00 on the selected day 0. -/
theorem C8_flowA_past_slot_disabled_witness :
    isSlotDisabled_A 600 0 540 true false = true :=
  C8_flowA_past_slot_disabled 600 0 540 true false (by decide) (by decide)

/-! ## Timezone conversion and the display round trip (seconds)

The source passes the IANA names from its `TIMEZONES` array to date-fns-tz,
so a display zone is embedded as its name together with its UTC-offset rule
from the tz database: minutes east of UTC as a function of the instant, a
DST transition being a change in that function's value.  Conversions work on
second-precision timestamps.  The read path (`checkExistingAppointment`,
case 3) converts the stored UTC instant with `toZonedTime` and then formats
only `yyyy-MM-dd` and `HH:mm`; the submit path recomposes
`` `${date}T${time}:00` `` and applies `fromZonedTime` — so the wall clock
fed back is the zoned instant truncated to the whole minute. -/

/-- A display timezone: the IANA name the source passes to date-fns-tz and
the zone's UTC-offset rule (minutes east of UTC, as a function of the
instant; DST transitions are changes of this function). -/
structure Timezone where
  name : String
  offsetAt : Int → Int

/-- The `value` fields of the source's `TIMEZONES` array: the supported zone
names, in order. -/
def TIMEZONE_VALUES : List String :=
  ["UTC", "America/New_York", "America/Chicago", "America/Los_Angeles",
   "Europe/London", "Europe/Paris", "Asia/Dubai", "Asia/Singapore",
   "Asia/Tokyo", "Australia/Sydney"]

/-- The UTC display zone: constant offset 0, no DST. -/
def tzUTC : Timezone := ⟨"UTC", fun _ => 0⟩

/-- `toZonedTime` from date-fns-tz: UTC instant to display-zone wall clock,
shifting by the zone's offset at that instant. -/
def toZonedTime (t : Int) (z : Timezone) : Int := t + 60 * z.offsetAt t

/-- `fromZonedTime` from date-fns-tz: interpret a wall-clock time in a zone.
The library guesses the offset by looking it up at the wall value read as an
instant and then corrects the guess once at the resulting candidate instant
(its `fixOffset` step); this embedding performs that guess-and-correct.
(The extra adjustment the library makes when a second lookup still disagrees
can only trigger when two transitions fall within one offset-width of each
other and is not represented.)  At a DST fall-back the recovered instant is
the one on the pre-transition offset, as in the library. -/
def fromZonedTime (w : Int) (z : Timezone) : Int :=
  w - 60 * z.offsetAt (w - 60 * z.offsetAt w)

/-- The read path's formatting composed with the submit path's
recomposition: `format(..., 'yyyy-MM-dd')` + `format(..., 'HH:mm')` + the
literal `:00` seconds, i.e. truncation of the wall clock to the whole
minute. -/
def reformatWallClock (w : Int) : Int := 60 * (w / 60)

/-- The full display round trip of claim C5: stored instant to display zone,
through the read path's formatting, back to UTC via the submit path. -/
def displayRoundTrip (t : Int) (z : Timezone) : Int :=
  fromZonedTime (reformatWallClock (toZonedTime t z)) z


/-! ## The remote appointment store and the reconciler's write paths

`hrta_cd00-03_appointment_info` is modelled as a list of rows.  Candidate
ids and position codes are opaque; we use `Nat`.  `appointment_time` is the
nullable stored instant.  The database's unique key on `candidate_id` (which
`upsert(..., { onConflict: 'candidate_id' })` requires) is the `storeWF`
invariant; a plain `insert` violating it fails, which `insertRow` models by
returning `none`. -/

/-- One row of the appointment table. -/
structure AppointmentRow where
  id : Nat
  candidate_id : Nat
  appointment_time : Option Int
  position_code : Nat
deriving DecidableEq

/-- The appointment table. -/
abbrev Store := List AppointmentRow

/-- `select('*').eq('candidate_id', cid).maybeSingle()`. -/
def selectByCandidate (s : Store) (cid : Nat) : Option AppointmentRow :=
  s.find? (fun r => r.candidate_id == cid)

/-- `update({appointment_time, position_code}).eq('id', rid)`. -/
def setTimeById (s : Store) (rid : Nat) (t : Int) (pos : Nat) : Store :=
  s.map (fun r => if r.id == rid then
    { r with appointment_time := some t, position_code := pos } else r)

/-- `update({ appointment_time: null }).eq('id', rid)` — flow A's cancel. -/
def clearTimeById (s : Store) (rid : Nat) : Store :=
  s.map (fun r => if r.id == rid then { r with appointment_time := none } else r)

/-- `delete().eq('id', rid)` — flow B's cancel. -/
def deleteById (s : Store) (rid : Nat) : Store :=
  s.filter (fun r => !(r.id == rid))

/-- `upsert({...}, { onConflict: 'candidate_id' })`: update the row holding
`cid` if one exists, otherwise insert a fresh row.  Never conflicts. -/
def upsertByCandidate (s : Store) (cid : Nat) (t : Int) (pos : Nat) (freshId : Nat) : Store :=
  if s.any (fun r => r.candidate_id == cid) then
    s.map (fun r => if r.candidate_id == cid then
      { r with appointment_time := some t, position_code := pos } else r)
  else s ++ [⟨freshId, cid, some t, pos⟩]

/-- Plain `insert({...})`: fails (returns `none`) when a row with the same
candidate id already exists, by the store's uniqueness constraint. -/
def insertRow (s : Store) (row : AppointmentRow) : Option Store :=
  if s.any (fun r => r.candidate_id == row.candidate_id) then none
  else some (s ++ [row])

/-- Store side of flow A's `handleSubmitAppointment`: update by row id when a
local existing appointment is held, otherwise conflict-safe upsert keyed on
the candidate id. -/
def handleSubmitAppointment_A (s : Store) (existing : Option AppointmentRow)
    (cid : Nat) (t : Int) (pos : Nat) (freshId : Nat) : Option Store :=
  match existing with
  | some ap => some (setTimeById s ap.id t pos)
  | none => some (upsertByCandidate s cid t pos freshId)

/-- Store side of flow B's `handleSubmitAppointment`: update by row id when a
local existing appointment is held, otherwise a plain insert (which the store
rejects on a duplicate candidate id). -/
def handleSubmitAppointment_B (s : Store) (existing : Option AppointmentRow)
    (cid : Nat) (t : Int) (pos : Nat) (freshId : Nat) : Option Store :=
  match existing with
  | some ap => some (setTimeById s ap.id t pos)
  | none => insertRow s ⟨freshId, cid, some t, pos⟩

/-- Store side of flow A's `handleDeleteAppointment`: null out the instant. -/
def handleDeleteAppointment_A (s : Store) (ap : AppointmentRow) : Store :=
  clearTimeById s ap.id

/-- Store side of flow B's `handleDeleteAppointment`: hard delete the row. -/
def handleDeleteAppointment_B (s : Store) (ap : AppointmentRow) : Store :=
  deleteById s ap.id

/-- What the read path reports as the candidate's scheduled instant. -/
def readScheduledInstant (s : Store) (cid : Nat) : Option Int :=
  (selectByCandidate s cid).bind (fun r => r.appointment_time)

/-- Number of rows held for a candidate id. -/
def countFor (s : Store) (cid : Nat) : Nat :=
  (s.filter (fun r => r.candidate_id == cid)).length

/-- The store's uniqueness constraint on `candidate_id`: no two rows share a
candidate id. -/
def storeWF (s : Store) : Prop :=
  s.Pairwise (fun a b => a.candidate_id ≠ b.candidate_id)

/-! ### Helper lemmas about the store -/

theorem selectByCandidate_mem {s : Store} {cid : Nat} {r : AppointmentRow}
    (h : selectByCandidate s cid = some r) : r ∈ s ∧ r.candidate_id = cid := by
  refine ⟨List.mem_of_find?_eq_some h, ?_⟩
  have := List.find?_some h
  simpa using this

theorem selectByCandidate_eq_none {s : Store} {cid : Nat}
    (h : selectByCandidate s cid = none) : ∀ r ∈ s, r.candidate_id ≠ cid := by
  intro r hr
  have := List.find?_eq_none.mp h r hr
  simpa using this

theorem countFor_eq_zero {s : Store} {cid : Nat}
    (h : ∀ r ∈ s, r.candidate_id ≠ cid) : countFor s cid = 0 := by
  induction s with
  | nil => rfl
  | cons a t ih =>
    have ha : (a.candidate_id == cid) = false := by
      simpa using h a (List.mem_cons_self a t)
    simp only [countFor, List.filter_cons, ha, Bool.false_eq_true, if_false]
    exact ih (fun r hr => h r (List.mem_cons_of_mem a hr))

theorem countFor_map {f : AppointmentRow → AppointmentRow}
    (hf : ∀ r, (f r).candidate_id = r.candidate_id) (s : Store) (cid : Nat) :
    countFor (s.map f) cid = countFor s cid := by
  induction s with
  | nil => rfl
  | cons a t ih =>
    simp only [List.map_cons, countFor, List.filter_cons, hf a] at *
    by_cases h : (a.candidate_id == cid) = true
    · simp [h, ih]
    · simp [h, ih]

theorem countFor_append_single (s : Store) (row : AppointmentRow) (cid : Nat) :
    countFor (s ++ [row]) cid =
      countFor s cid + (if row.candidate_id == cid then 1 else 0) := by
  simp only [countFor, List.filter_append, List.length_append, List.filter_cons,
    List.filter_nil]
  by_cases h : (row.candidate_id == cid) = true
  · simp [h]
  · simp [h]

theorem countFor_eq_one_of_wf {s : Store} {cid : Nat} {r : AppointmentRow}
    (hwf : storeWF s) (h : selectByCandidate s cid = some r) :
    countFor s cid = 1 := by
  induction s with
  | nil => simp [selectByCandidate] at h
  | cons a t ih =>
    rcases List.pairwise_cons.mp hwf with ⟨hhead, htail⟩
    by_cases ha : (a.candidate_id == cid) = true
    · have ha' : a.candidate_id = cid := by simpa using ha
      have ht0 : countFor t cid = 0 := by
        refine countFor_eq_zero ?_
        intro x hx
        have := hhead x hx
        omega
      simp only [countFor, List.filter_cons, ha, if_true, List.length_cons]
      simp only [countFor] at ht0
      omega
    · have h' : selectByCandidate t cid = some r := by
        simpa [selectByCandidate, List.find?_cons, ha] using h
      have := ih htail h'
      simp only [countFor, List.filter_cons, ha, if_false]
      simpa [countFor] using this

theorem wf_candidate_unique {s : Store} {a b : AppointmentRow}
    (hwf : storeWF s) (ha : a ∈ s) (hb : b ∈ s)
    (hcid : a.candidate_id = b.candidate_id) : a = b := by
  induction s with
  | nil => cases ha
  | cons x t ih =>
    rcases List.pairwise_cons.mp hwf with ⟨hhead, htail⟩
    rcases List.mem_cons.mp ha with rfl | ha'
    · rcases List.mem_cons.mp hb with rfl | hb'
      · rfl
      · exact absurd hcid (hhead b hb')
    · rcases List.mem_cons.mp hb with rfl | hb'
      · exact absurd hcid.symm (hhead a ha')
      · exact ih htail ha' hb'

theorem countFor_setTimeById (s : Store) (rid : Nat) (t : Int) (pos cid : Nat) :
    countFor (setTimeById s rid t pos) cid = countFor s cid := by
  simp only [setTimeById]
  refine countFor_map ?_ s cid
  intro r
  by_cases h : (r.id == rid) = true
  · simp [h]
  · simp [h]

theorem selectByCandidate_map {f : AppointmentRow → AppointmentRow}
    (hf : ∀ r, (f r).candidate_id = r.candidate_id) (s : Store) (cid : Nat) :
    selectByCandidate (s.map f) cid = (selectByCandidate s cid).map f := by
  induction s with
  | nil => rfl
  | cons a tl ih =>
    simp only [selectByCandidate, List.map_cons, List.find?_cons, hf a] at *
    cases h : (a.candidate_id == cid) <;> simp [h, ih]

/-- Core counting lemma for flow A's submit: if holding an existing row
implies the store already has exactly one row for the candidate, then any
successful submission leaves exactly one row. -/
theorem submitA_count {s : Store} {cid : Nat} (t : Int) (pos fid : Nat)
    (hsome : ∀ ap, selectByCandidate s cid = some ap → countFor s cid = 1) :
    ∀ s₁, handleSubmitAppointment_A s (selectByCandidate s cid) cid t pos fid = some s₁ →
      countFor s₁ cid = 1 := by
  intro s₁ hs₁
  cases hsel : selectByCandidate s cid with
  | some ap =>
    rw [hsel] at hs₁
    simp only [handleSubmitAppointment_A, Option.some.injEq] at hs₁
    rw [← hs₁, countFor_setTimeById]
    exact hsome ap hsel
  | none =>
    rw [hsel] at hs₁
    simp only [handleSubmitAppointment_A, Option.some.injEq] at hs₁
    have hall : ∀ r ∈ s, r.candidate_id ≠ cid := selectByCandidate_eq_none hsel
    have hany : (s.any (fun r => r.candidate_id == cid)) = false := by
      rw [List.any_eq_false]
      intro r hr
      simpa using hall r hr
    rw [← hs₁]
    simp only [upsertByCandidate, hany, Bool.false_eq_true, if_false]
    rw [countFor_append_single, countFor_eq_zero hall]
    simp

/-- Core counting lemma for flow B's submit. -/
theorem submitB_count {s : Store} {cid : Nat} (t : Int) (pos fid : Nat)
    (hsome : ∀ ap, selectByCandidate s cid = some ap → countFor s cid = 1) :
    ∀ s₁, handleSubmitAppointment_B s (selectByCandidate s cid) cid t pos fid = some s₁ →
      countFor s₁ cid = 1 := by
  intro s₁ hs₁
  cases hsel : selectByCandidate s cid with
  | some ap =>
    rw [hsel] at hs₁
    simp only [handleSubmitAppointment_B, Option.some.injEq] at hs₁
    rw [← hs₁, countFor_setTimeById]
    exact hsome ap hsel
  | none =>
    rw [hsel] at hs₁
    have hall : ∀ r ∈ s, r.candidate_id ≠ cid := selectByCandidate_eq_none hsel
    have hany : (s.any (fun r => r.candidate_id == cid)) = false := by
      rw [List.any_eq_false]
      intro r hr
      simpa using hall r hr
    simp only [handleSubmitAppointment_B, insertRow, hany, Bool.false_eq_true, if_false,
      Option.some.injEq] at hs₁
    rw [← hs₁]
    rw [countFor_append_single, countFor_eq_zero hall]
    simp

/-- Claim C2: from every reconciler starting state (any well-formed store, so
NONE, PENDING or SCHEDULED alike, with the local existing row being the fresh
read `selectByCandidate s cid`), a successful submission in either flow
leaves exactly one appointment row for the candidate, and a repeated
successful submission of the same payload (after the post-write re-read)
still leaves exactly one row. -/
theorem C2_exactly_one_row :
    ∀ (s : Store) (cid : Nat) (t : Int) (pos fid : Nat),
      storeWF s →
      (∀ s₁, handleSubmitAppointment_A s (selectByCandidate s cid) cid t pos fid = some s₁ →
        countFor s₁ cid = 1 ∧
        ∀ s₂, handleSubmitAppointment_A s₁ (selectByCandidate s₁ cid) cid t pos fid = some s₂ →
          countFor s₂ cid = 1) ∧
      (∀ s₁, handleSubmitAppointment_B s (selectByCandidate s cid) cid t pos fid = some s₁ →
        countFor s₁ cid = 1 ∧
        ∀ s₂, handleSubmitAppointment_B s₁ (selectByCandidate s₁ cid) cid t pos fid = some s₂ →
          countFor s₂ cid = 1) := by
  intro s cid t pos fid hwf
  constructor
  · intro s₁ h1
    have hc1 := submitA_count t pos fid
      (fun ap hap => countFor_eq_one_of_wf hwf hap) s₁ h1
    exact ⟨hc1, fun s₂ h2 => submitA_count t pos fid (fun ap _ => hc1) s₂ h2⟩
  · intro s₁ h1
    have hc1 := submitB_count t pos fid
      (fun ap hap => countFor_eq_one_of_wf hwf hap) s₁ h1
    exact ⟨hc1, fun s₂ h2 => submitB_count t pos fid (fun ap _ => hc1) s₂ h2⟩

/-- Witness for C2: starting from the empty store (state NONE) for candidate
7, flow A's submission produces the single row and the count is one. -/
theorem C2_exactly_one_row_witness :
    storeWF ([] : Store) ∧ countFor [⟨1, 7, some 100, 3⟩] 7 = 1 :=
  ⟨List.Pairwise.nil,
   ((C2_exactly_one_row [] 7 100 3 1 List.Pairwise.nil).1
     [⟨1, 7, some 100, 3⟩] (by decide)).1⟩

/-- Claim C3: for a candidate holding an appointment row, flow A's cancel
(null-out) and flow B's cancel (hard delete) both leave no scheduled instant
readable, and a subsequent booking submission succeeds without a uniqueness
conflict — in flow A because the local existing row is reset to `none` and
the upsert is conflict-safe for every local state, in flow B because the
fresh read after the hard delete finds no row and the insert therefore does
not collide on the candidate id. -/
theorem C3_cancel_then_rebook :
    ∀ (s : Store) (cid : Nat) (ap : AppointmentRow) (t : Int) (pos fid : Nat),
      storeWF s → selectByCandidate s cid = some ap →
      (readScheduledInstant (handleDeleteAppointment_A s ap) cid = none ∧
        ∀ ex, (handleSubmitAppointment_A (handleDeleteAppointment_A s ap)
          ex cid t pos fid).isSome = true) ∧
      (readScheduledInstant (handleDeleteAppointment_B s ap) cid = none ∧
        (handleSubmitAppointment_B (handleDeleteAppointment_B s ap)
          (selectByCandidate (handleDeleteAppointment_B s ap) cid)
          cid t pos fid).isSome = true) := by
  intro s cid ap t pos fid hwf hsel
  obtain ⟨hapmem, hapcid⟩ := selectByCandidate_mem hsel
  constructor
  · constructor
    · have hmap := selectByCandidate_map
        (f := fun r => if r.id == ap.id then { r with appointment_time := none } else r)
        (fun r => by by_cases h : (r.id == ap.id) = true <;> simp [h]) s cid
      simp only [readScheduledInstant, handleDeleteAppointment_A, clearTimeById, hmap, hsel]
      simp
    · intro ex
      cases ex <;> simp [handleSubmitAppointment_A]
  · have hall : ∀ r ∈ handleDeleteAppointment_B s ap, r.candidate_id ≠ cid := by
      intro r hr hcid
      have hmem := (List.mem_filter.mp hr).1
      have hid := (List.mem_filter.mp hr).2
      have : r = ap := wf_candidate_unique hwf hmem hapmem (hcid.trans hapcid.symm)
      subst this
      simp at hid
    have hnone : selectByCandidate (handleDeleteAppointment_B s ap) cid = none := by
      refine List.find?_eq_none.mpr ?_
      intro r hr
      simpa using hall r hr
    refine ⟨by simp [readScheduledInstant, hnone], ?_⟩
    have hany : ((handleDeleteAppointment_B s ap).any
        (fun r => r.candidate_id == cid)) = false := by
      rw [List.any_eq_false]
      intro r hr
      simpa using hall r hr
    rw [hnone]
    simp [handleSubmitAppointment_B, insertRow, hany]

/-- Witness for C3: candidate 7 holds row 1; after either cancel the read
path reports no scheduled instant. -/
theorem C3_cancel_then_rebook_witness :
    readScheduledInstant
      (handleDeleteAppointment_A [⟨1, 7, some 100, 3⟩] ⟨1, 7, some 100, 3⟩) 7 = none ∧
    readScheduledInstant
      (handleDeleteAppointment_B [⟨1, 7, some 100, 3⟩] ⟨1, 7, some 100, 3⟩) 7 = none :=
  ⟨(C3_cancel_then_rebook [⟨1, 7, some 100, 3⟩] 7 ⟨1, 7, some 100, 3⟩ 0 0 2
      (List.pairwise_singleton _ _) (by decide)).1.1,
   (C3_cancel_then_rebook [⟨1, 7, some 100, 3⟩] 7 ⟨1, 7, some 100, 3⟩ 0 0 2
      (List.pairwise_singleton _ _) (by decide)).2.1⟩

/-! ## The reconciler's local component state

`checkExistingAppointment`, `handleSubmitAppointment` and
`handleDeleteAppointment` also drive the component's React state.  Remote
responses are passed in as `Except Unit _`: `Except.error ()` is a failed
read or write (the `catch` path), `Except.ok` a successful response.  Stored
instants are second-precision; the displayed `selectedTime` is the zoned
minute of day (`format(..., 'HH:mm')`). -/

/-- Minute of day shown by `format(..., 'HH:mm')` on a zoned timestamp. -/
def wallMinuteOfDay (w : Int) : Int := w / 60 % 1440

/-- The booking component's local state: the fetched existing appointment,
the selected date and time, the edit-mode flag, and the user-visible error
message (`none` = no message shown). -/
structure LocalState where
  existingAppointment : Option AppointmentRow
  selectedDate : Option Int
  selectedTime : Option Int
  isEditMode : Bool
  errorMsg : Option String
deriving DecidableEq

/-- Flow A's `checkExistingAppointment`: no row resets everything (case 1); a
row with null instant enters edit mode so a slot can be chosen at once
(case 2); a row with an instant converts it into the selected display zone
(case 3).  A failed read only logs to the console: the state is returned
unchanged and no error message is set. -/
def checkExistingAppointment_A (tz : Timezone) (st : LocalState)
    (res : Except Unit (Option AppointmentRow)) : LocalState :=
  match res with
  | Except.error _ => st
  | Except.ok none =>
    { st with
      existingAppointment := none
      selectedDate := none
      selectedTime := none
      isEditMode := false }
  | Except.ok (some row) =>
    match row.appointment_time with
    | none =>
      { st with
        existingAppointment := some row
        selectedDate := none
        selectedTime := none
        isEditMode := true }
    | some t =>
      { st with
        existingAppointment := some row
        selectedDate := some (toZonedTime t tz)
        selectedTime := some (wallMinuteOfDay (toZonedTime t tz))
        isEditMode := false }

/-- Flow B's `checkExistingAppointment`: it stores the row and parses
`data.appointment_time` unconditionally.  With a null instant the parse
throws after `setExistingAppointment(data)` and the outer catch only logs,
so the remaining fields (including `isEditMode`) keep their prior values; a
failed read likewise returns the state unchanged with no message. -/
def checkExistingAppointment_B (tz : Timezone) (st : LocalState)
    (res : Except Unit (Option AppointmentRow)) : LocalState :=
  match res with
  | Except.error _ => st
  | Except.ok none =>
    { st with
      existingAppointment := none
      selectedDate := none
      selectedTime := none
      isEditMode := false }
  | Except.ok (some row) =>
    match row.appointment_time with
    | none => { st with existingAppointment := some row }
    | some t =>
      { st with
        existingAppointment := some row
        selectedDate := some (toZonedTime t tz)
        selectedTime := some (wallMinuteOfDay (toZonedTime t tz))
        isEditMode := false }

/-- State side of flow A's `handleSubmitAppointment`: validation failure sets
an inline message without any remote call; a failed write sets the failure
message and touches nothing else; a successful write clears edit mode and
re-reads the row. -/
def handleSubmitState_A (tz : Timezone) (st : LocalState)
    (writeRes : Except Unit Unit)
    (reread : Except Unit (Option AppointmentRow)) : LocalState :=
  if st.selectedDate = none ∨ st.selectedTime = none then
    { st with errorMsg := some "Please select a date and time" }
  else
    match writeRes with
    | Except.error _ =>
      { st with errorMsg := some "Failed to save appointment. Please try again." }
    | Except.ok _ =>
      checkExistingAppointment_A tz
        { st with errorMsg := none, isEditMode := false } reread

/-- State side of flow B's `handleSubmitAppointment` (same shape; the
post-write re-read goes through flow B's read path). -/
def handleSubmitState_B (tz : Timezone) (st : LocalState)
    (writeRes : Except Unit Unit)
    (reread : Except Unit (Option AppointmentRow)) : LocalState :=
  if st.selectedDate = none ∨ st.selectedTime = none then
    { st with errorMsg := some "Please select a date and time" }
  else
    match writeRes with
    | Except.error _ =>
      { st with errorMsg := some "Failed to save appointment. Please try again." }
    | Except.ok _ =>
      checkExistingAppointment_B tz
        { st with errorMsg := none, isEditMode := false } reread

/-- State side of flow A's `handleDeleteAppointment`: a no-op without an
existing row; a failed clear sets the failure message and touches nothing
else; a successful clear resets the local appointment state. -/
def handleDeleteState_A (st : LocalState) (res : Except Unit Unit) : LocalState :=
  match st.existingAppointment with
  | none => st
  | some _ =>
    match res with
    | Except.error _ =>
      { st with errorMsg := some "Failed to delete appointment. Please try again." }
    | Except.ok _ =>
      { st with
        existingAppointment := none
        selectedDate := none
        selectedTime := none
        errorMsg := none }

/-- State side of flow B's `handleDeleteAppointment` (delete instead of
null-out on the store side; the local state transitions are the same). -/
def handleDeleteState_B (st : LocalState) (res : Except Unit Unit) : LocalState :=
  match st.existingAppointment with
  | none => st
  | some _ =>
    match res with
    | Except.error _ =>
      { st with errorMsg := some "Failed to delete appointment. Please try again." }
    | Except.ok _ =>
      { st with
        existingAppointment := none
        selectedDate := none
        selectedTime := none
        errorMsg := none }

/-- Claim C4 counterexample: in flow B, reading a row whose scheduled instant
is null (candidate 7, row 1) from a quiescent state does not offer immediate
slot selection — `isEditMode` stays `false`, unlike the claimed PENDING
mapping, so the claimed mapping does not hold in both flows. -/
theorem C4_flowB_pending_no_edit_mode :
    (checkExistingAppointment_B tzUTC ⟨none, none, none, false, none⟩
      (Except.ok (some ⟨1, 7, none, 3⟩))).isEditMode = false := by
  decide

/-- Claim C4 amended: the claimed read-path mapping (absent row → NONE; null
instant → PENDING with immediate slot selection; valid instant → SCHEDULED
with the instant converted to the display zone) holds in the candidate-facing
flow A; in flow B the absent and valid-instant cases behave the same, but a
row with a null instant only records the row and leaves date, time and edit
mode unchanged, so immediate slot selection is not offered. -/
theorem C4_read_path_mapping :
    ∀ (tz : Timezone) (st : LocalState) (row : AppointmentRow) (t : Int),
      (checkExistingAppointment_A tz st (Except.ok none) =
        { st with
          existingAppointment := none
          selectedDate := none
          selectedTime := none
          isEditMode := false }) ∧
      (row.appointment_time = none →
        checkExistingAppointment_A tz st (Except.ok (some row)) =
          { st with
            existingAppointment := some row
            selectedDate := none
            selectedTime := none
            isEditMode := true }) ∧
      (row.appointment_time = some t →
        checkExistingAppointment_A tz st (Except.ok (some row)) =
          { st with
            existingAppointment := some row
            selectedDate := some (toZonedTime t tz)
            selectedTime := some (wallMinuteOfDay (toZonedTime t tz))
            isEditMode := false }) ∧
      (checkExistingAppointment_B tz st (Except.ok none) =
        { st with
          existingAppointment := none
          selectedDate := none
          selectedTime := none
          isEditMode := false }) ∧
      (row.appointment_time = some t →
        checkExistingAppointment_B tz st (Except.ok (some row)) =
          { st with
            existingAppointment := some row
            selectedDate := some (toZonedTime t tz)
            selectedTime := some (wallMinuteOfDay (toZonedTime t tz))
            isEditMode := false }) ∧
      (row.appointment_time = none →
        checkExistingAppointment_B tz st (Except.ok (some row)) =
          { st with existingAppointment := some row }) := by
  intro tz st row t
  refine ⟨rfl, ?_, ?_, rfl, ?_, ?_⟩
  · intro h
    simp [checkExistingAppointment_A, h]
  · intro h
    simp [checkExistingAppointment_A, h]
  · intro h
    simp [checkExistingAppointment_B, h]
  · intro h
    simp [checkExistingAppointment_B, h]

/-- Witness for the amended C4: flow A maps a concrete null-instant row to
edit mode (immediate slot selection). -/
theorem C4_read_path_mapping_witness :
    (checkExistingAppointment_A tzUTC ⟨none, none, none, false, none⟩
      (Except.ok (some ⟨1, 7, none, 3⟩))).isEditMode = true := by
  have h := (C4_read_path_mapping tzUTC ⟨none, none, none, false, none⟩
    ⟨1, 7, none, 3⟩ 0).2.1 rfl
  rw [h]

/-- Claim C9 counterexample: a failed existing-appointment read in flow A
(here from a quiescent state with a selection on day 0 at 09:00) leaves the
state unchanged and surfaces no user-visible error message — a silently
swallowed error path other than the question-disclosure time check. -/
theorem C9_read_failure_silent :
    checkExistingAppointment_A tzUTC ⟨none, some 0, some 540, false, none⟩
        (Except.error ()) = ⟨none, some 0, some 540, false, none⟩ ∧
    (checkExistingAppointment_A tzUTC ⟨none, some 0, some 540, false, none⟩
        (Except.error ())).errorMsg = none := by
  exact ⟨rfl, rfl⟩

/-- Claim C9 amended: failed writes (submit past validation, delete with an
existing row) surface a user-visible error message and leave the existing
appointment, selected date and selected time unchanged, in both flows; the
existing-appointment read failure, however, is silently swallowed in both
flows (state returned unchanged, no message) — in addition to the bypassed
question-disclosure check. -/
theorem C9_error_surfacing :
    ∀ (tz : Timezone) (st : LocalState)
      (rr : Except Unit (Option AppointmentRow)),
      (st.selectedDate ≠ none → st.selectedTime ≠ none →
        handleSubmitState_A tz st (Except.error ()) rr =
          { st with errorMsg := some "Failed to save appointment. Please try again." } ∧
        handleSubmitState_B tz st (Except.error ()) rr =
          { st with errorMsg := some "Failed to save appointment. Please try again." }) ∧
      (st.existingAppointment ≠ none →
        handleDeleteState_A st (Except.error ()) =
          { st with errorMsg := some "Failed to delete appointment. Please try again." } ∧
        handleDeleteState_B st (Except.error ()) =
          { st with errorMsg := some "Failed to delete appointment. Please try again." }) ∧
      (checkExistingAppointment_A tz st (Except.error ()) = st ∧
        checkExistingAppointment_B tz st (Except.error ()) = st) := by
  intro tz st rr
  refine ⟨?_, ?_, rfl, rfl⟩
  · intro hd ht
    have hcond : ¬(st.selectedDate = none ∨ st.selectedTime = none) := by
      rintro (h | h)
      · exact hd h
      · exact ht h
    constructor
    · simp [handleSubmitState_A, hcond]
    · simp [handleSubmitState_B, hcond]
  · intro hex
    cases hx : st.existingAppointment with
    | none => exact absurd hx hex
    | some ap =>
      constructor
      · simp [handleDeleteState_A, hx]
      · simp [handleDeleteState_B, hx]

/-- Witness for the amended C9: with a selection present, a failed write in
flow A surfaces the save-failure message. -/
theorem C9_error_surfacing_witness :
    handleSubmitState_A tzUTC ⟨none, some 0, some 540, false, none⟩
        (Except.error ()) (Except.ok none) =
      { existingAppointment := none
        selectedDate := some 0
        selectedTime := some 540
        isEditMode := false
        errorMsg := some "Failed to save appointment. Please try again." } :=
  ((C9_error_surfacing tzUTC ⟨none, some 0, some 540, false, none⟩
      (Except.ok none)).1
    (by decide) (by decide)).1

/-! ## Month navigation (C10)

Flow A pages the calendar with `addDays(currentMonth, ±30)`; flow B with
`addMonths(currentMonth, ±1)`.  To talk about calendar months, days since the
epoch are converted to and from civil `(year, month, day)` triples with the
standard proleptic-Gregorian algorithms (all divisors positive, so `Int`
division is floor division). -/

/-- Gregorian leap year. -/
def isLeapYear (y : Int) : Bool :=
  (y % 4 == 0 && !(y % 100 == 0)) || (y % 400 == 0)

/-- Days in a month of the proleptic Gregorian calendar. -/
def daysInMonth (y m : Int) : Int :=
  if m == 2 then (if isLeapYear y then 29 else 28)
  else if m == 4 || m == 6 || m == 9 || m == 11 then 30
  else 31

/-- Civil date to days since 1970-01-01 (proleptic Gregorian). -/
def daysFromCivil (y m d : Int) : Int :=
  let yAdj := if m ≤ 2 then y - 1 else y
  let era := yAdj / 400
  let yoe := yAdj - era * 400
  let mp := if 2 < m then m - 3 else m + 9
  let doy := (153 * mp + 2) / 5 + d - 1
  let doe := yoe * 365 + yoe / 4 - yoe / 100 + doy
  era * 146097 + doe - 719468

/-- Days since 1970-01-01 to the civil `(year, month, day)` triple. -/
def civilFromDays (z : Int) : Int × Int × Int :=
  let z2 := z + 719468
  let era := z2 / 146097
  let doe := z2 - era * 146097
  let yoe := (doe - doe / 1460 + doe / 36524 - doe / 146096) / 365
  let y := yoe + era * 400
  let doy := doe - (365 * yoe + yoe / 4 - yoe / 100)
  let mp := (5 * doy + 2) / 153
  let d := doy - (153 * mp + 2) / 5 + 1
  let m := if mp < 10 then mp + 3 else mp - 9
  (if m ≤ 2 then y + 1 else y, m, d)

/-- The calendar month a minute-timestamp falls in, linearised as
`12 * year + month` so that "k calendar months ahead" is `+ k`. -/
def monthLinear (t : Int) : Int :=
  let c := civilFromDays (t / 1440)
  12 * c.1 + c.2.1

/-- Flow A's `nextMonth`: `addDays(currentMonth, 30)`. -/
def nextMonth_A (t : Int) : Int := addDaysMin t 30

/-- Flow A's `previousMonth`: `addDays(currentMonth, -30)`. -/
def previousMonth_A (t : Int) : Int := addDaysMin t (-30)

/-- `addMonths` from date-fns: step the month index, clamping the day of
month to the target month's length, keeping the time of day. -/
def addMonths (t n : Int) : Int :=
  let c := civilFromDays (t / 1440)
  let total := 12 * c.1 + (c.2.1 - 1) + n
  let y := total / 12
  let m := total % 12 + 1
  let d := min c.2.2 (daysInMonth y m)
  daysFromCivil y m d * 1440 + t % 1440

/-- Flow B's `nextMonth`: `addMonths(currentMonth, 1)`. -/
def nextMonth_B (t : Int) : Int := addMonths t 1

/-- Flow B's `previousMonth`: `addMonths(currentMonth, -1)`. -/
def previousMonth_B (t : Int) : Int := addMonths t (-1)

/-- Claim C10: flow A's month navigation moves the cursor by exactly 30 days
in each direction, so the two operations invert each other; but from
31 January 2025 flow A's `nextMonth` lands in March — two calendar months
ahead, skipping February — while flow B's `addMonths`-based `nextMonth`
advances exactly one calendar month from the same cursor. -/
theorem C10_month_navigation :
    (∀ d : Int, nextMonth_A d = d + 30 * 1440) ∧
    (∀ d : Int, previousMonth_A d = d - 30 * 1440) ∧
    (∀ d : Int, previousMonth_A (nextMonth_A d) = d) ∧
    monthLinear (nextMonth_A (1440 * daysFromCivil 2025 1 31)) =
      monthLinear (1440 * daysFromCivil 2025 1 31) + 2 ∧
    monthLinear (nextMonth_B (1440 * daysFromCivil 2025 1 31)) =
      monthLinear (1440 * daysFromCivil 2025 1 31) + 1 := by
  refine ⟨?_, ?_, ?_, ?_, ?_⟩
  · intro d
    simp only [nextMonth_A, addDaysMin]
    omega
  · intro d
    simp only [previousMonth_A, addDaysMin]
    omega
  · intro d
    simp only [previousMonth_A, nextMonth_A, addDaysMin]
    omega
  · decide
  · decide

/-! ## The C5 round trip, settled against the offset-rule model

`America/New_York` is among the supported zone names; its offset rule around
the 2 November 2025 fall-back transition (as the tz database prescribes:
EDT, −240 minutes, before 06:00 UTC; EST, −300 minutes, from then on) is
enough for the counterexample. -/

/-- 06:00 UTC on 2 November 2025 in epoch seconds: the instant
America/New_York falls back from EDT to EST. -/
def nyFallBack2025 : Int := daysFromCivil 2025 11 2 * 86400 + 6 * 3600

/-- The America/New_York display zone, carrying the tz database's offset
rule in the neighbourhood of the 2 November 2025 fall-back (the only
instants the theorems below evaluate it at): −240 minutes (EDT) before the
transition, −300 minutes (EST) from it on. -/
def tzAmericaNewYork : Timezone :=
  ⟨"America/New_York", fun u => if u < nyFallBack2025 then -240 else -300⟩

/-- Claim C5 counterexample, both failure modes at supported zones: (a) the
instant 30 s past the epoch, displayed in UTC, comes back as 0 — the
`HH:mm` formatting discards sub-minute components; (b) in America/New_York
the whole-minute instant 06:30 UTC on 2 Nov 2025 (EST side of the
fall-back) displays as wall clock 01:30, which `fromZonedTime` maps back to
05:30 UTC (the EDT side) — two distinct stored instants share one display,
so the round trip cannot restore both. -/
theorem C5_roundtrip_not_exact :
    ("UTC" ∈ TIMEZONE_VALUES ∧ tzUTC.name = "UTC" ∧
      displayRoundTrip 30 tzUTC = 0 ∧ (0 : Int) ≠ 30) ∧
    ("America/New_York" ∈ TIMEZONE_VALUES ∧
      tzAmericaNewYork.name = "America/New_York" ∧
      (nyFallBack2025 + 1800) % 60 = 0 ∧
      displayRoundTrip (nyFallBack2025 + 1800) tzAmericaNewYork =
        nyFallBack2025 - 1800 ∧
      nyFallBack2025 - 1800 ≠ nyFallBack2025 + 1800) :=
  ⟨⟨List.Mem.head _, rfl, by decide, by decide⟩,
   ⟨List.Mem.tail _ (List.Mem.head _), rfl, by decide, by decide, by decide⟩⟩

/-- Claim C5 amended: the display round trip reproduces a stored instant
exactly when the instant lies on a whole minute (the only instants the
submit path can produce, since it always recomposes with `:00` seconds) and
the display zone applies a single constant UTC offset, as the supported
zones that observe no DST do (UTC, Asia/Dubai, Asia/Singapore, Asia/Tokyo).
Sub-minute instants are truncated by the `HH:mm` formatting, and the
DST-observing supported zones lose whole-minute instants at fall-back
transitions (see the counterexample), so neither restriction can be
dropped. -/
theorem C5_roundtrip_on_whole_minutes :
    ∀ (t : Int) (z : Timezone), t % 60 = 0 →
      (∀ u : Int, z.offsetAt u = z.offsetAt t) →
      displayRoundTrip t z = t := by
  intro t z ht hz
  simp only [displayRoundTrip, fromZonedTime, reformatWallClock, toZonedTime, hz]
  omega

/-- Witness for the amended C5: two minutes past the epoch round-trips
exactly through the constant-offset UTC zone. -/
theorem C5_roundtrip_on_whole_minutes_witness :
    displayRoundTrip 120 tzUTC = 120 :=
  C5_roundtrip_on_whole_minutes 120 tzUTC (by decide) (fun _ => rfl)
